import Mathlib

/-!
Shallow embedding of `onnxruntime/core/providers/webnn/builders/helper.cc`
(the WebNN graph-partitioning helpers of the LiveCaption repository).

Conventions of the embedding:
* `std::vector<int64_t>` shapes become `List Int`.
* A `NodeArg`'s optional shape proto becomes `Option (List (Option Int))`:
  `none` when `Shape()` is null, and each dimension is `some v` when
  `has_dim_value()` holds, `none` for a dynamic dimension.
* `InitializedTensorSet` (a hash map from tensor name to tensor proto)
  becomes an association list `List (String × Nat)` whose `insert` does not
  overwrite an existing key, matching `std::unordered_map::insert`; tensor
  protos are abstracted to opaque `Nat` identifiers.
* The externally supplied collaborators (`CheckSingleOp` over the WebNN
  builder and device type, and each op builder's `IsOpSupported` over the
  device type, limits and logger) are passed as opaque function parameters;
  logging is dropped as it does not affect any returned value.
* C++ loops are compiled to structural recursion; the `for` loop of
  `GetBidirectionalBroadcastShape` carries an explicit iteration count
  (`fuel`), equal to `larger_size - i` at every call.
-/

/-- One tensor edge (`NodeArg`): a name and an optional shape whose
dimensions each optionally carry a concrete value. -/
structure NodeArg where
  name : String
  shape : Option (List (Option Int))

/-- A graph node: operation-kind label and name. -/
structure Node where
  opType : String
  name : String

/-- A (possibly nested) graph for initializer collection: its own
initializer map plus, for a subgraph, a parent link. -/
inductive Graph where
  | top : List (String × Nat) → Graph
  | sub : List (String × Nat) → Graph → Graph

/-- `Graph::IsSubgraph()`. -/
def Graph.isSubgraph : Graph → Bool
  | .top _ => false
  | .sub _ _ => true

/-- `Graph::GetAllInitializedTensors()` — the graph's own initializers only. -/
def Graph.getAllInitializedTensors : Graph → List (String × Nat)
  | .top inits => inits
  | .sub inits _ => inits

/-- The `GraphViewer`: underlying graph, declared graph inputs, node
indices in topological order, and node lookup by index. -/
structure GraphViewer where
  graph : Graph
  inputs : List NodeArg
  nodeIndices : List Nat
  getNode : Nat → Node

/-- The initializer map abstraction (`InitializedTensorSet`). -/
abbrev InitializedTensorSet := List (String × Nat)

/-- The op-builder registry: operation kind to the builder's
`IsOpSupported` (initializers, node) predicate. -/
abbrev OpBuilderMap := List (String × (InitializedTensorSet → Node → Bool))

/-- Association-list lookup (first occurrence wins), used for both the
`unordered_map::find`/`at` and `Contains` idioms of the source. -/
def lookupKey {α β : Type} [DecidableEq α] : List (α × β) → α → Option β
  | [], _ => none
  | kv :: rest, k => if kv.1 = k then some kv.2 else lookupKey rest k

/-- `std::unordered_map::insert` of a single pair: a present key is not
overwritten. -/
def insertNoReplace (m : InitializedTensorSet) (kv : String × Nat) : InitializedTensorSet :=
  if m.any (fun p => p.1 = kv.1) then m else m ++ [kv]

/-- `std::unordered_map::insert(first, last)` over a whole range. -/
def insertRange (m : InitializedTensorSet) (l : InitializedTensorSet) : InitializedTensorSet :=
  l.foldl insertNoReplace m

/-- The `while (cur_graph->IsSubgraph())` walk of
`CollectAllInitializedTensors`, followed by the final top-level insert. -/
def collectFromGraph : Graph → InitializedTensorSet → InitializedTensorSet
  | .top inits, acc => insertRange acc inits
  | .sub inits p, acc => collectFromGraph p (insertRange acc inits)

/-- `CollectAllInitializedTensors(graph_viewer)` (helper.cc lines 15-31). -/
def CollectAllInitializedTensors (gv : GraphViewer) : InitializedTensorSet :=
  if gv.graph.isSubgraph then collectFromGraph gv.graph [] else []

/-- `IsNodeSupported` (helper.cc lines 48-57): dispatch to the registered
op builder, handing it the graph viewer's own initializer set. -/
def IsNodeSupported (opBuilders : OpBuilderMap) (node : Node) (gv : GraphViewer) : Bool :=
  match lookupKey opBuilders node.opType with
  | some isOpSupported => isOpSupported gv.graph.getAllInitializedTensors node
  | none => false

/-- `IsInputSupported` (helper.cc lines 59-84). -/
def IsInputSupported (input : NodeArg) : Bool :=
  if input.name = "" then true
  else
    match input.shape with
    | none => false
    | some dims => dims.all (fun d => d.isSome)

/-- The per-node support test of the `GetSupportedNodes` scan
(helper.cc lines 105-110): the platform check `CheckSingleOp` gates the
instance check `IsNodeSupported`. -/
def nodeSupportedIn (gv : GraphViewer) (checkSingleOp : String → Bool)
    (opBuilders : OpBuilderMap) (idx : Nat) : Bool :=
  if checkSingleOp (gv.getNode idx).opType then
    IsNodeSupported opBuilders (gv.getNode idx) gv
  else false

/-- The node scan of `GetSupportedNodes` (helper.cc lines 102-129):
`acc` is the running `supported_node_group`; a supported index is appended
to it, an unsupported index flushes a non-empty accumulator, and a final
non-empty accumulator is flushed after the scan. -/
def partitionLoop (sup : Nat → Bool) : List Nat → List Nat → List (List Nat)
  | [], acc => if acc.isEmpty then [] else [acc]
  | idx :: rest, acc =>
    if sup idx then partitionLoop sup rest (acc ++ [idx])
    else if acc.isEmpty then partitionLoop sup rest acc
    else acc :: partitionLoop sup rest []

/-- `GetSupportedNodes` (helper.cc lines 86-132). -/
def GetSupportedNodes (gv : GraphViewer) (checkSingleOp : String → Bool)
    (opBuilders : OpBuilderMap) : List (List Nat) :=
  if gv.inputs.all (fun i => IsInputSupported i) then
    partitionLoop (nodeSupportedIn gv checkSingleOp opBuilders) gv.nodeIndices []
  else []

/-- `std::vector::resize(n)`: truncate or pad with value-initialized
(`0`) elements. -/
def resizeShape (l : List Int) (n : Nat) : List Int :=
  l.take n ++ List.replicate (n - l.length) 0

/-- The `for (size_t i = 0; i < larger_size; i++)` loop of
`GetBidirectionalBroadcastShape` (helper.cc lines 194-209); `fuel` equals
`larger_size - i` at every call. -/
def bcastLoop (a b : List Int) : Nat → Nat → List Int → Bool × List Int
  | _, 0, out => (true, out)
  | i, fuel + 1, out =>
    if i < min a.length b.length then
      if a.getD (a.length - i - 1) 0 ≠ b.getD (b.length - i - 1) 0 ∧
          a.getD (a.length - i - 1) 0 ≠ 1 ∧ b.getD (b.length - i - 1) 0 ≠ 1 then
        (false, out)
      else
        bcastLoop a b (i + 1) fuel
          (out.set (max a.length b.length - i - 1)
            (max (a.getD (a.length - i - 1) 0) (b.getD (b.length - i - 1) 0)))
    else
      bcastLoop a b (i + 1) fuel
        (out.set (max a.length b.length - i - 1)
          (if b.length < a.length then a.getD (a.length - i - 1) 0
           else b.getD (b.length - i - 1) 0))

/-- `GetBidirectionalBroadcastShape` (helper.cc lines 184-212); the third
argument is the incoming contents of the in-out `output_shape` vector, and
the returned pair is (returned bool, final `output_shape` contents). -/
def GetBidirectionalBroadcastShape (shape_a shape_b output_shape : List Int) :
    Bool × List Int :=
  bcastLoop shape_a shape_b 0 (max shape_a.length shape_b.length)
    (resizeShape output_shape (max shape_a.length shape_b.length))

/-- ONNX `TensorProto_DataType` enum value. -/
def TensorProto_DataType_FLOAT : Int := 1

/-- ONNX `TensorProto_DataType` enum value. -/
def TensorProto_DataType_UINT8 : Int := 2

/-- ONNX `TensorProto_DataType` enum value. -/
def TensorProto_DataType_INT8 : Int := 3

/-- ONNX `TensorProto_DataType` enum value. -/
def TensorProto_DataType_INT32 : Int := 6

/-- ONNX `TensorProto_DataType` enum value. -/
def TensorProto_DataType_INT64 : Int := 7

/-- ONNX `TensorProto_DataType` enum value. -/
def TensorProto_DataType_BOOL : Int := 9

/-- ONNX `TensorProto_DataType` enum value. -/
def TensorProto_DataType_FLOAT16 : Int := 10

/-- ONNX `TensorProto_DataType` enum value. -/
def TensorProto_DataType_UINT32 : Int := 12

/-- ONNX `TensorProto_DataType` enum value. -/
def TensorProto_DataType_UINT64 : Int := 13

/-- Modelled from the spec: the `onnx_to_webnn_data_type_map` table lives
in `helper.h`, which is not under `src/`; the spec (§4.1) lists the
supported mappings (boolean, signed/unsigned 8-bit, 16/32-bit float,
32/64-bit signed and unsigned integers), and the tags agree with the
`SetWebnnDataType` switch that is in `src/`. -/
def onnx_to_webnn_data_type_map : List (Int × String) :=
  [(TensorProto_DataType_BOOL, "uint8"),
   (TensorProto_DataType_UINT8, "uint8"),
   (TensorProto_DataType_INT8, "int8"),
   (TensorProto_DataType_FLOAT16, "float16"),
   (TensorProto_DataType_FLOAT, "float32"),
   (TensorProto_DataType_INT32, "int32"),
   (TensorProto_DataType_INT64, "int64"),
   (TensorProto_DataType_UINT32, "uint32"),
   (TensorProto_DataType_UINT64, "uint64")]

/-- `IsSupportedDataType` (helper.cc lines 149-160): map the ONNX type and
test membership in the backend's allowed set (the `includes` call). -/
def IsSupportedDataType (onnx_data_type : Int)
    (webnn_supported_data_types : List String) : Bool :=
  match lookupKey onnx_to_webnn_data_type_map onnx_data_type with
  | none => false
  | some webnn_data_type => webnn_supported_data_types.contains webnn_data_type

/-- `SetWebnnDataType` (helper.cc lines 214-244): `some tag` models
setting `dataType` to `tag` and returning true; `none` models the default
branch returning false. -/
def SetWebnnDataType (data_type : Int) : Option String :=
  if data_type = TensorProto_DataType_BOOL ∨ data_type = TensorProto_DataType_UINT8 then
    some "uint8"
  else if data_type = TensorProto_DataType_INT8 then some "int8"
  else if data_type = TensorProto_DataType_FLOAT16 then some "float16"
  else if data_type = TensorProto_DataType_FLOAT then some "float32"
  else if data_type = TensorProto_DataType_INT32 then some "int32"
  else if data_type = TensorProto_DataType_INT64 then some "int64"
  else if data_type = TensorProto_DataType_UINT32 then some "uint32"
  else if data_type = TensorProto_DataType_UINT64 then some "uint64"
  else none

/-- Option alternative: first value if present, else the second. Used to
state lookup laws for the no-overwrite insert. -/
def optOr {α : Type} (x y : Option α) : Option α :=
  match x with
  | some v => some v
  | none => y

/-- Specification-side definition (from the spec's words on
`InitializerSet` scoping): look a name up in the innermost scope first,
then walk outward through the ancestor graphs. -/
def scopeChainLookupSpec : Graph → String → Option Nat
  | .top inits, k => lookupKey inits k
  | .sub inits p, k => optOr (lookupKey inits k) (scopeChainLookupSpec p k)

/-- Specification-side predicate (from the spec's words on
`BroadcastShape`): at right-aligned offset `i`, the two dimensions are
equal or one of them equals 1. -/
abbrev broadcastCompatAt (a b : List Int) (i : Nat) : Prop :=
  a.getD (a.length - i - 1) 0 = b.getD (b.length - i - 1) 0 ∨
  a.getD (a.length - i - 1) 0 = 1 ∨ b.getD (b.length - i - 1) 0 = 1

/-- Specification-side definition (from the spec's words on
`BroadcastShape`): the output dimension at right-aligned offset `i` is the
maximum of the two dimensions when both shapes cover the offset, and the
longer shape's dimension otherwise. -/
def broadcastOutputDimSpec (a b : List Int) (i : Nat) : Int :=
  if i < min a.length b.length then
    max (a.getD (a.length - i - 1) 0) (b.getD (b.length - i - 1) 0)
  else if b.length < a.length then a.getD (a.length - i - 1) 0
  else b.getD (b.length - i - 1) 0

/-- Specification-side definition: the full broadcast output, position `p`
holding the dimension for right-aligned offset `larger - 1 - p`. -/
def broadcastOutputSpec (a b : List Int) : List Int :=
  (List.range (max a.length b.length)).map
    (fun p => broadcastOutputDimSpec a b (max a.length b.length - 1 - p))

/-- Fixture: an op-builder `IsOpSupported` that answers true exactly when
the initializer set it is handed is empty. -/
def emptyProbeBuilder : InitializedTensorSet → Node → Bool :=
  fun inits _ => inits.isEmpty

/-- Fixture: registry holding only `emptyProbeBuilder` for `Add`. -/
def probeOpBuilders : OpBuilderMap := [("Add", emptyProbeBuilder)]

/-- Fixture: a subgraph with no initializers of its own whose parent
declares the initializer `w`. -/
def nestedGraphFixture : Graph := Graph.sub [] (Graph.top [("w", 1)])

/-- Fixture: graph viewer over `nestedGraphFixture`. -/
def nestedViewerFixture : GraphViewer :=
  { graph := nestedGraphFixture, inputs := [], nodeIndices := [],
    getNode := fun _ => { opType := "Add", name := "" } }

/-- Fixture: an `Add` node. -/
def addNodeFixture : Node := { opType := "Add", name := "n0" }

/-- Fixture: a top-level graph viewer that declares initializers. -/
def topViewerFixture : GraphViewer :=
  { graph := Graph.top [("w", 1)], inputs := [], nodeIndices := [],
    getNode := fun _ => { opType := "Add", name := "" } }

/-- Fixture: a subgraph viewer with a shadowed initializer name. -/
def shadowViewerFixture : GraphViewer :=
  { graph := Graph.sub [("w", 2)] (Graph.top [("w", 1), ("v", 3)]),
    inputs := [], nodeIndices := [],
    getNode := fun _ => { opType := "Add", name := "" } }

/-- Fixture: an op-builder registry accepting `Add` unconditionally. -/
def acceptAllOpBuilders : OpBuilderMap := [("Add", fun _ _ => true)]

/-- Fixture: a two-node graph viewer whose nodes are all `Add`. -/
def twoNodeViewerFixture : GraphViewer :=
  { graph := Graph.top [], inputs := [], nodeIndices := [0, 1],
    getNode := fun _ => { opType := "Add", name := "" } }

/-- Fixture: a graph viewer whose sole declared input has no shape. -/
def shapelessInputViewerFixture : GraphViewer :=
  { graph := Graph.top [], inputs := [{ name := "x", shape := none }],
    nodeIndices := [0, 1], getNode := fun _ => { opType := "Add", name := "" } }

/-- No group emitted by the scan loop is empty: the accumulator is only
flushed when non-empty. -/
theorem partitionLoop_ne_nil (sup : Nat → Bool) :
    ∀ (l acc : List Nat), [] ∉ partitionLoop sup l acc := by
  intro l
  induction l with
  | nil =>
    intro acc
    cases acc with
    | nil => simp [partitionLoop]
    | cons y ys => simp [partitionLoop]
  | cons idx rest ih =>
    intro acc
    by_cases hs : sup idx = true
    · simpa [partitionLoop, hs] using ih (acc ++ [idx])
    · cases acc with
      | nil => simpa [partitionLoop, hs] using ih []
      | cons y ys =>
        simp only [partitionLoop, hs, if_false, List.isEmpty_cons, Bool.false_eq_true]
        intro hmem
        rcases List.mem_cons.mp hmem with h | h
        · exact List.cons_ne_nil y ys h.symm
        · exact ih [] h

/-- Every element of every group emitted by the scan loop satisfies the
support predicate, provided the accumulator already does. -/
theorem partitionLoop_sound (sup : Nat → Bool) :
    ∀ (l acc : List Nat), (∀ x ∈ acc, sup x = true) →
      ∀ g ∈ partitionLoop sup l acc, ∀ x ∈ g, sup x = true := by
  intro l
  induction l with
  | nil =>
    intro acc hacc g hg
    cases acc with
    | nil => simp [partitionLoop] at hg
    | cons y ys =>
      simp only [partitionLoop, List.isEmpty_cons, Bool.false_eq_true, if_false,
        List.mem_singleton] at hg
      subst hg
      exact hacc
  | cons idx rest ih =>
    intro acc hacc g hg
    by_cases hs : sup idx = true
    · rw [partitionLoop, if_pos hs] at hg
      refine ih (acc ++ [idx]) ?_ g hg
      intro x hx
      rcases List.mem_append.mp hx with h | h
      · exact hacc x h
      · exact (List.mem_singleton.mp h) ▸ hs
    · cases acc with
      | nil =>
        rw [partitionLoop, if_neg hs, if_pos List.isEmpty_nil] at hg
        exact ih [] (by simp) g hg
      | cons y ys =>
        simp only [partitionLoop, hs, if_false, List.isEmpty_cons,
          Bool.false_eq_true] at hg
        rcases List.mem_cons.mp hg with h | h
        · subst h
          exact hacc
        · exact ih [] (by simp) g h

/-- A non-empty accumulator always surfaces in the scan loop's output as
the front of some group. -/
theorem partitionLoop_acc_extends (sup : Nat → Bool) :
    ∀ (l acc : List Nat), acc ≠ [] →
      ∃ g ∈ partitionLoop sup l acc, ∃ t, g = acc ++ t := by
  intro l
  induction l with
  | nil =>
    intro acc hacc
    cases acc with
    | nil => exact absurd rfl hacc
    | cons y ys =>
      refine ⟨y :: ys, ?_, [], by simp⟩
      simp [partitionLoop]
  | cons idx rest ih =>
    intro acc hacc
    by_cases hs : sup idx = true
    · obtain ⟨g, hg, t, ht⟩ := ih (acc ++ [idx]) (by simp)
      refine ⟨g, ?_, [idx] ++ t, by simpa [List.append_assoc] using ht⟩
      rw [partitionLoop, if_pos hs]
      exact hg
    · cases acc with
      | nil => exact absurd rfl hacc
      | cons y ys =>
        refine ⟨y :: ys, ?_, [], by simp⟩
        simp [partitionLoop, hs]

/-- Two adjacent supported indices end up in one common group of the scan
loop's output, for any position of the pair and any accumulator. -/
theorem partitionLoop_adjacent (sup : Nat → Bool) (a b : Nat) (l₂ : List Nat)
    (ha : sup a = true) (hb : sup b = true) :
    ∀ (l₁ acc : List Nat),
      ∃ g ∈ partitionLoop sup (l₁ ++ a :: b :: l₂) acc, a ∈ g ∧ b ∈ g := by
  intro l₁
  induction l₁ with
  | nil =>
    intro acc
    obtain ⟨g, hg, t, ht⟩ :=
      partitionLoop_acc_extends sup l₂ (acc ++ [a] ++ [b]) (by simp)
    refine ⟨g, ?_, ?_, ?_⟩
    · rw [List.nil_append, partitionLoop, if_pos ha, partitionLoop, if_pos hb]
      exact hg
    · subst ht; simp
    · subst ht; simp
  | cons x rest ih =>
    intro acc
    by_cases hs : sup x = true
    · obtain ⟨g, hg, hab⟩ := ih (acc ++ [x])
      refine ⟨g, ?_, hab⟩
      rw [List.cons_append, partitionLoop, if_pos hs]
      exact hg
    · cases acc with
      | nil =>
        obtain ⟨g, hg, hab⟩ := ih []
        refine ⟨g, ?_, hab⟩
        rw [List.cons_append, partitionLoop, if_neg hs, if_pos List.isEmpty_nil]
        exact hg
      | cons y ys =>
        obtain ⟨g, hg, hab⟩ := ih []
        refine ⟨g, ?_, hab⟩
        simp only [List.cons_append, partitionLoop, hs, if_false,
          List.isEmpty_cons, Bool.false_eq_true]
        exact List.mem_cons_of_mem _ hg

/-- C1: for every graph and capability object whose graph inputs pass the
eligibility check, two nodes consecutive in the topological order that are
both platform-supported and instance-supported land in one common group of
`GetSupportedNodes`; no emitted group is empty; and an unsupported node
flushes (terminates) a non-empty current group. -/
theorem getSupportedNodes_maximal
    (gv : GraphViewer) (cso : String → Bool) (ob : OpBuilderMap)
    (l₁ l₂ : List Nat) (a b : Nat)
    (hinp : gv.inputs.all (fun i => IsInputSupported i) = true)
    (horder : gv.nodeIndices = l₁ ++ a :: b :: l₂)
    (hpa : cso (gv.getNode a).opType = true)
    (hia : IsNodeSupported ob (gv.getNode a) gv = true)
    (hpb : cso (gv.getNode b).opType = true)
    (hib : IsNodeSupported ob (gv.getNode b) gv = true) :
    (∃ g ∈ GetSupportedNodes gv cso ob, a ∈ g ∧ b ∈ g) ∧
    [] ∉ GetSupportedNodes gv cso ob ∧
    (∀ (c : Nat) (rest acc : List Nat),
      nodeSupportedIn gv cso ob c = false → acc ≠ [] →
      partitionLoop (nodeSupportedIn gv cso ob) (c :: rest) acc =
        acc :: partitionLoop (nodeSupportedIn gv cso ob) rest []) := by
  have hsa : nodeSupportedIn gv cso ob a = true := by
    simp [nodeSupportedIn, hpa, hia]
  have hsb : nodeSupportedIn gv cso ob b = true := by
    simp [nodeSupportedIn, hpb, hib]
  have hres : GetSupportedNodes gv cso ob =
      partitionLoop (nodeSupportedIn gv cso ob) gv.nodeIndices [] := by
    simp only [GetSupportedNodes, hinp, if_true]
  refine ⟨?_, ?_, ?_⟩
  · rw [hres, horder]
    exact partitionLoop_adjacent _ a b l₂ hsa hsb l₁ []
  · rw [hres]
    exact partitionLoop_ne_nil _ _ _
  · intro c rest acc hc hacc
    cases acc with
    | nil => exact absurd rfl hacc
    | cons y ys => simp [partitionLoop, hc]

/-- Witness for C1 at a concrete two-node all-supported graph. -/
theorem getSupportedNodes_maximal_witness :
    ∃ g ∈ GetSupportedNodes twoNodeViewerFixture (fun _ => true) acceptAllOpBuilders,
      0 ∈ g ∧ 1 ∈ g :=
  (getSupportedNodes_maximal twoNodeViewerFixture (fun _ => true) acceptAllOpBuilders
    [] [] 0 1 (by decide) rfl rfl (by decide) rfl (by decide)).1

/-- C2: every node index inside any group of `GetSupportedNodes` passes
both the platform check `CheckSingleOp` and the instance check
`IsNodeSupported`; and when the platform check fails the scan's verdict is
false for every op-builder registry, i.e. the instance check is never
consulted. -/
theorem getSupportedNodes_sound
    (gv : GraphViewer) (cso : String → Bool) (ob : OpBuilderMap)
    (g : List Nat) (idx : Nat)
    (hg : g ∈ GetSupportedNodes gv cso ob) (hidx : idx ∈ g) :
    (cso (gv.getNode idx).opType = true ∧
      IsNodeSupported ob (gv.getNode idx) gv = true) ∧
    (∀ (j : Nat) (ob2 : OpBuilderMap),
      cso (gv.getNode j).opType = false → nodeSupportedIn gv cso ob2 j = false) := by
  constructor
  · by_cases hinp : gv.inputs.all (fun i => IsInputSupported i) = true
    · rw [GetSupportedNodes, if_pos hinp] at hg
      have hsup := partitionLoop_sound (nodeSupportedIn gv cso ob) gv.nodeIndices []
        (by simp) g hg idx hidx
      by_cases hcso : cso (gv.getNode idx).opType = true
      · refine ⟨hcso, ?_⟩
        rw [nodeSupportedIn, if_pos hcso] at hsup
        exact hsup
      · rw [nodeSupportedIn, if_neg hcso] at hsup
        exact absurd hsup (by simp)
    · rw [GetSupportedNodes, if_neg hinp] at hg
      simp at hg
  · intro j ob2 hf
    simp [nodeSupportedIn, hf]

/-- Witness for C2 at a concrete two-node all-supported graph. -/
theorem getSupportedNodes_sound_witness :
    (fun _ => true : String → Bool) (twoNodeViewerFixture.getNode 0).opType = true ∧
    IsNodeSupported acceptAllOpBuilders (twoNodeViewerFixture.getNode 0)
      twoNodeViewerFixture = true :=
  (getSupportedNodes_sound twoNodeViewerFixture (fun _ => true) acceptAllOpBuilders
    [0, 1] 0 (by decide) (by decide)).1

/-- C3: a declared graph input with a non-empty name and either no shape
metadata or some dimension without a concrete value makes
`GetSupportedNodes` return the empty group list, whatever the nodes and
capability object are; an input with an empty name always passes
`IsInputSupported`. -/
theorem getSupportedNodes_shortCircuit
    (gv : GraphViewer) (cso : String → Bool) (ob : OpBuilderMap) (inp : NodeArg)
    (hmem : inp ∈ gv.inputs) (hname : inp.name ≠ "")
    (hbad : inp.shape = none ∨
      ∃ dims, inp.shape = some dims ∧ (none : Option Int) ∈ dims) :
    GetSupportedNodes gv cso ob = [] ∧
    (∀ arg : NodeArg, arg.name = "" → IsInputSupported arg = true) := by
  have hinp : IsInputSupported inp = false := by
    rcases hbad with h | ⟨dims, hsh, hdim⟩
    · simp [IsInputSupported, hname, h]
    · simp only [IsInputSupported, hname, if_false, hsh]
      exact List.all_eq_false.mpr ⟨none, hdim, by simp⟩
  have hall : gv.inputs.all (fun i => IsInputSupported i) = false :=
    List.all_eq_false.mpr ⟨inp, hmem, by simp [hinp]⟩
  constructor
  · rw [GetSupportedNodes, if_neg (by simp [hall])]
  · intro arg h
    simp [IsInputSupported, h]

/-- Witness for C3 at a graph whose sole input has no shape metadata. -/
theorem getSupportedNodes_shortCircuit_witness :
    GetSupportedNodes shapelessInputViewerFixture (fun _ => true) acceptAllOpBuilders = [] :=
  (getSupportedNodes_shortCircuit shapelessInputViewerFixture (fun _ => true)
    acceptAllOpBuilders { name := "x", shape := none } (List.Mem.head _)
    (by decide) (Or.inl rfl)).1

/-- `optOr` is associative. -/
theorem optOr_assoc {α : Type} (x y z : Option α) :
    optOr (optOr x y) z = optOr x (optOr y z) := by
  cases x <;> rfl

/-- Lookup distributes over list append as `optOr`. -/
theorem lookupKey_append {α β : Type} [DecidableEq α] (m l : List (α × β)) (k : α) :
    lookupKey (m ++ l) k = optOr (lookupKey m k) (lookupKey l k) := by
  induction m with
  | nil => rfl
  | cons kv rest ih =>
    by_cases h : kv.1 = k
    · simp [lookupKey, h, optOr]
    · simp [lookupKey, h, ih]

/-- A key is absent from the lookup exactly when no entry carries it. -/
theorem lookupKey_eq_none_iff (m : InitializedTensorSet) (k : String) :
    lookupKey m k = none ↔ m.any (fun p => p.1 = k) = false := by
  induction m with
  | nil => simp [lookupKey]
  | cons kv rest ih =>
    by_cases h : kv.1 = k
    · simp [lookupKey, h]
    · simp [lookupKey, h, ih]

/-- Lookup after a single no-overwrite insert: the existing binding wins. -/
theorem lookupKey_insertNoReplace (m : InitializedTensorSet) (kv : String × Nat)
    (k : String) :
    lookupKey (insertNoReplace m kv) k =
      optOr (lookupKey m k) (if kv.1 = k then some kv.2 else none) := by
  rw [insertNoReplace]
  by_cases hany : m.any (fun p => p.1 = kv.1) = true
  · rw [if_pos hany]
    cases hm : lookupKey m k with
    | some v => simp [optOr]
    | none =>
      by_cases hk : kv.1 = k
      · subst hk
        rw [lookupKey_eq_none_iff] at hm
        rw [hm] at hany
        exact absurd hany (by simp)
      · simp [optOr, hk]
  · rw [if_neg hany, lookupKey_append]
    congr 1

/-- Lookup after a whole-range no-overwrite insert: existing bindings win,
then the inserted range is consulted in order. -/
theorem lookupKey_insertRange (m l : InitializedTensorSet) (k : String) :
    lookupKey (insertRange m l) k = optOr (lookupKey m k) (lookupKey l k) := by
  induction l generalizing m with
  | nil => cases h : lookupKey m k <;> simp [insertRange, optOr, lookupKey, h]
  | cons kv rest ih =>
    rw [insertRange, List.foldl_cons]
    have hfold : rest.foldl insertNoReplace (insertNoReplace m kv) =
        insertRange (insertNoReplace m kv) rest := rfl
    rw [hfold, ih, lookupKey_insertNoReplace, optOr_assoc]
    congr 1
    by_cases h : kv.1 = k
    · simp [lookupKey, h, optOr]
    · simp [lookupKey, h, optOr]

/-- The ancestor walk of `CollectAllInitializedTensors` realizes
innermost-first scope-chain lookup on top of the accumulator. -/
theorem lookupKey_collectFromGraph (g : Graph) :
    ∀ (acc : InitializedTensorSet) (k : String),
      lookupKey (collectFromGraph g acc) k =
        optOr (lookupKey acc k) (scopeChainLookupSpec g k) := by
  induction g with
  | top inits =>
    intro acc k
    rw [collectFromGraph, lookupKey_insertRange]
    rfl
  | sub inits p ih =>
    intro acc k
    rw [collectFromGraph, ih, lookupKey_insertRange, optOr_assoc]
    rfl

/-- C6: `CollectAllInitializedTensors` returns the empty set for a graph
that is not a subgraph, even when that graph declares initializers; for a
subgraph, every name resolves as in the innermost-to-outermost scope
chain, so an inner binding is never overwritten by an outer one. -/
theorem collectAllInitializedTensors_spec (gv : GraphViewer) :
    (gv.graph.isSubgraph = false → CollectAllInitializedTensors gv = []) ∧
    (gv.graph.isSubgraph = true → ∀ k,
      lookupKey (CollectAllInitializedTensors gv) k =
        scopeChainLookupSpec gv.graph k) := by
  constructor
  · intro h
    rw [CollectAllInitializedTensors, if_neg (by simp [h])]
  · intro h k
    rw [CollectAllInitializedTensors, if_pos h, lookupKey_collectFromGraph]
    rfl

/-- Witness for C6: a top-level graph declaring an initializer collects
nothing, and a shadowed name resolves to the inner scope's binding. -/
theorem collectAllInitializedTensors_spec_witness :
    CollectAllInitializedTensors topViewerFixture = [] ∧
    lookupKey (CollectAllInitializedTensors shadowViewerFixture) "w" =
      scopeChainLookupSpec shadowViewerFixture.graph "w" :=
  ⟨(collectAllInitializedTensors_spec topViewerFixture).1 (by decide),
   (collectAllInitializedTensors_spec shadowViewerFixture).2 (by decide) "w"⟩

/-- C5 counterexample: on a nested graph whose parent declares an
initializer, `IsNodeSupported` hands the dispatched op builder the node's
own graph's (empty) initializer set rather than the non-empty set gathered
by `CollectAllInitializedTensors`: a builder that answers whether its set
is empty returns true through `IsNodeSupported` yet false on the
collector's set, and the two sets differ. -/
theorem isNodeSupported_collector_cex :
    IsNodeSupported probeOpBuilders addNodeFixture nestedViewerFixture = true ∧
    emptyProbeBuilder (CollectAllInitializedTensors nestedViewerFixture)
      addNodeFixture = false ∧
    CollectAllInitializedTensors nestedViewerFixture ≠
      nestedViewerFixture.graph.getAllInitializedTensors :=
  ⟨rfl, rfl, by decide⟩

/-- C5 amended: when an operation's instance-level legality depends on
constant operand values, `IsNodeSupported` consults the initializer set of
the node's own graph (`GraphViewer::GetAllInitializedTensors`), handing
exactly that set to the dispatched op builder's `IsOpSupported`. -/
theorem isNodeSupported_consults_own_initializers
    (ob : OpBuilderMap) (node : Node) (gv : GraphViewer)
    (f : InitializedTensorSet → Node → Bool)
    (h : lookupKey ob node.opType = some f) :
    IsNodeSupported ob node gv = f gv.graph.getAllInitializedTensors node := by
  simp only [IsNodeSupported, h]

/-- Witness for the amended C5 on a concrete top-level graph. -/
theorem isNodeSupported_consults_own_initializers_witness :
    IsNodeSupported probeOpBuilders addNodeFixture topViewerFixture =
      emptyProbeBuilder topViewerFixture.graph.getAllInitializedTensors
        addNodeFixture :=
  isNodeSupported_consults_own_initializers probeOpBuilders addNodeFixture
    topViewerFixture emptyProbeBuilder rfl

/-- C8: `IsSupportedDataType` returns false exactly when the ONNX type has
no entry in the onnx-to-webnn type map, or the mapped webnn tag is absent
from the supplied allowed-type set; otherwise it returns true. -/
theorem isSupportedDataType_spec (t : Int) (allowed : List String) :
    IsSupportedDataType t allowed = false ↔
      (lookupKey onnx_to_webnn_data_type_map t = none ∨
       ∃ tag, lookupKey onnx_to_webnn_data_type_map t = some tag ∧
         allowed.contains tag = false) := by
  cases h : lookupKey onnx_to_webnn_data_type_map t with
  | none => simp [IsSupportedDataType, h]
  | some tag => simp [IsSupportedDataType, h]

/-- Witness for C8: an unmapped ONNX type code is rejected. -/
theorem isSupportedDataType_spec_witness :
    IsSupportedDataType 99 ["uint8"] = false :=
  (isSupportedDataType_spec 99 ["uint8"]).mpr (Or.inl (by decide))

/-- C10: the boolean and the unsigned-8-bit ONNX element types both map to
the webnn tag `uint8` under `SetWebnnDataType`, so the source-to-backend
type mapping is not injective, and an allowed set containing `uint8`
accepts both types. -/
theorem setWebnnDataType_bool_uint8_alias :
    SetWebnnDataType TensorProto_DataType_BOOL = some "uint8" ∧
    SetWebnnDataType TensorProto_DataType_UINT8 = some "uint8" ∧
    TensorProto_DataType_BOOL ≠ TensorProto_DataType_UINT8 ∧
    (∀ allowed : List String, allowed.contains "uint8" = true →
      IsSupportedDataType TensorProto_DataType_BOOL allowed = true ∧
      IsSupportedDataType TensorProto_DataType_UINT8 allowed = true) := by
  refine ⟨by decide, by decide, by decide, ?_⟩
  intro allowed h
  constructor
  · have hlook : lookupKey onnx_to_webnn_data_type_map TensorProto_DataType_BOOL =
        some "uint8" := by decide
    simp only [IsSupportedDataType, hlook]
    exact h
  · have hlook : lookupKey onnx_to_webnn_data_type_map TensorProto_DataType_UINT8 =
        some "uint8" := by decide
    simp only [IsSupportedDataType, hlook]
    exact h

/-- Witness for C10 with the singleton allowed set containing `uint8`. -/
theorem setWebnnDataType_bool_uint8_alias_witness :
    IsSupportedDataType TensorProto_DataType_BOOL ["uint8"] = true ∧
    IsSupportedDataType TensorProto_DataType_UINT8 ["uint8"] = true :=
  setWebnnDataType_bool_uint8_alias.2.2.2 ["uint8"] (by decide)

/-- The broadcast loop never changes the length of the output vector. -/
theorem bcastLoop_length (a b : List Int) :
    ∀ (fuel i : Nat) (out : List Int),
      ((bcastLoop a b i fuel out).2).length = out.length := by
  intro fuel
  induction fuel with
  | zero => intro i out; rfl
  | succ n ih =>
    intro i out
    rw [bcastLoop]
    by_cases h1 : i < min a.length b.length
    · rw [if_pos h1]
      by_cases h2 : a.getD (a.length - i - 1) 0 ≠ b.getD (b.length - i - 1) 0 ∧
          a.getD (a.length - i - 1) 0 ≠ 1 ∧ b.getD (b.length - i - 1) 0 ≠ 1
      · rw [if_pos h2]
      · rw [if_neg h2, ih, List.length_set]
    · rw [if_neg h1, ih, List.length_set]

/-- `resizeShape` yields exactly the requested length. -/
theorem resizeShape_length (l : List Int) (n : Nat) :
    (resizeShape l n).length = n := by
  rw [resizeShape, List.length_append, List.length_take, List.length_replicate]
  omega

/-- Dropping up to a just-updated position exposes the written value. -/
theorem drop_set_same : ∀ (l : List Int) (k : Nat) (v : Int), k < l.length →
    (l.set k v).drop k = v :: l.drop (k + 1) := by
  intro l
  induction l with
  | nil =>
    intro k v h
    simp at h
  | cons x xs ih =>
    intro k v h
    cases k with
    | zero => rfl
    | succ n =>
      simp only [List.set_cons_succ, List.drop_succ_cons]
      exact ih n v (by simpa using h)

/-- The broadcast loop succeeds from iteration `i` exactly when every
remaining shared right-aligned offset is dimension-compatible. -/
theorem bcastLoop_ok_iff (a b : List Int) :
    ∀ (fuel i : Nat) (out : List Int), i + fuel = max a.length b.length →
      ((bcastLoop a b i fuel out).1 = true ↔
        ∀ j, i ≤ j → j < min a.length b.length → broadcastCompatAt a b j) := by
  intro fuel
  induction fuel with
  | zero =>
    intro i out hif
    constructor
    · intro _ j hij hj
      exfalso
      omega
    · intro _
      rfl
  | succ n ih =>
    intro i out hif
    rw [bcastLoop]
    by_cases h1 : i < min a.length b.length
    · rw [if_pos h1]
      by_cases h2 : a.getD (a.length - i - 1) 0 ≠ b.getD (b.length - i - 1) 0 ∧
          a.getD (a.length - i - 1) 0 ≠ 1 ∧ b.getD (b.length - i - 1) 0 ≠ 1
      · rw [if_pos h2]
        simp only [Bool.false_eq_true, false_iff]
        intro hall
        rcases hall i le_rfl h1 with h | h | h
        · exact h2.1 h
        · exact h2.2.1 h
        · exact h2.2.2 h
      · rw [if_neg h2, ih (i + 1) _ (by omega)]
        have hcompat : broadcastCompatAt a b i := by
          by_contra hc
          simp only [broadcastCompatAt, not_or] at hc
          exact h2 ⟨hc.1, hc.2.1, hc.2.2⟩
        constructor
        · intro hall j hij hj
          rcases Nat.eq_or_lt_of_le hij with heq | hlt
          · exact heq ▸ hcompat
          · exact hall j hlt hj
        · intro hall j hij hj
          exact hall j (by omega) hj
    · rw [if_neg h1, ih (i + 1) _ (by omega)]
      constructor
      · intro hall j hij hj
        rcases Nat.eq_or_lt_of_le hij with heq | hlt
        · omega
        · exact hall j hlt hj
      · intro hall j hij hj
        exact hall j (by omega) hj

/-- On a compatible remainder, the broadcast loop fills positions `0`
through `fuel - 1` of the output with the specified dimensions and leaves
the rest of the vector as it found it. -/
theorem bcastLoop_out (a b : List Int) :
    ∀ (fuel i : Nat) (out : List Int), i + fuel = max a.length b.length →
      out.length = max a.length b.length →
      (∀ j, i ≤ j → j < min a.length b.length → broadcastCompatAt a b j) →
      (bcastLoop a b i fuel out).2 =
        ((List.range fuel).map
          (fun p => broadcastOutputDimSpec a b (max a.length b.length - 1 - p)))
          ++ out.drop fuel := by
  intro fuel
  induction fuel with
  | zero =>
    intro i out hif hlen hall
    simp [bcastLoop]
  | succ n ih =>
    intro i out hif hlen hall
    rw [bcastLoop]
    by_cases h1 : i < min a.length b.length
    · have h2 : ¬(a.getD (a.length - i - 1) 0 ≠ b.getD (b.length - i - 1) 0 ∧
          a.getD (a.length - i - 1) 0 ≠ 1 ∧ b.getD (b.length - i - 1) 0 ≠ 1) := by
        rcases hall i le_rfl h1 with h | h | h
        · exact fun hc => hc.1 h
        · exact fun hc => hc.2.1 h
        · exact fun hc => hc.2.2 h
      rw [if_pos h1, if_neg h2]
      rw [ih (i + 1) _ (by omega) (by rw [List.length_set]; exact hlen)
        (fun j hij hj => hall j (by omega) hj)]
      have hpos : max a.length b.length - i - 1 = n := by omega
      rw [hpos, drop_set_same out n _ (by omega)]
      rw [List.range_succ, List.map_append, List.append_assoc]
      congr 1
      have harg : max a.length b.length - 1 - n = i := by omega
      simp only [List.map_cons, List.map_nil, List.singleton_append, harg]
      congr 1
      rw [broadcastOutputDimSpec, if_pos h1]
    · rw [if_neg h1]
      rw [ih (i + 1) _ (by omega) (by rw [List.length_set]; exact hlen)
        (fun j hij hj => hall j (by omega) hj)]
      have hpos : max a.length b.length - i - 1 = n := by omega
      rw [hpos, drop_set_same out n _ (by omega)]
      rw [List.range_succ, List.map_append, List.append_assoc]
      congr 1
      have harg : max a.length b.length - 1 - n = i := by omega
      simp only [List.map_cons, List.map_nil, List.singleton_append, harg]
      congr 1
      rw [broadcastOutputDimSpec, if_neg h1]

/-- Swapping the two shape arguments leaves the broadcast loop's result
unchanged (boolean and output vector alike). -/
theorem bcastLoop_symm (a b : List Int) :
    ∀ (fuel i : Nat) (out : List Int), i + fuel = max a.length b.length →
      bcastLoop a b i fuel out = bcastLoop b a i fuel out := by
  intro fuel
  induction fuel with
  | zero => intro i out _; rfl
  | succ n ih =>
    intro i out hif
    simp only [bcastLoop]
    rw [Nat.min_comm b.length a.length, Nat.max_comm b.length a.length]
    by_cases h1 : i < min a.length b.length
    · rw [if_pos h1, if_pos h1]
      by_cases h2 : a.getD (a.length - i - 1) 0 ≠ b.getD (b.length - i - 1) 0 ∧
          a.getD (a.length - i - 1) 0 ≠ 1 ∧ b.getD (b.length - i - 1) 0 ≠ 1
      · have h2s : b.getD (b.length - i - 1) 0 ≠ a.getD (a.length - i - 1) 0 ∧
            b.getD (b.length - i - 1) 0 ≠ 1 ∧ a.getD (a.length - i - 1) 0 ≠ 1 :=
          ⟨fun h => h2.1 h.symm, h2.2.2, h2.2.1⟩
        rw [if_pos h2, if_pos h2s]
      · have h2s : ¬(b.getD (b.length - i - 1) 0 ≠ a.getD (a.length - i - 1) 0 ∧
            b.getD (b.length - i - 1) 0 ≠ 1 ∧ a.getD (a.length - i - 1) 0 ≠ 1) :=
          fun h => h2 ⟨fun hh => h.1 hh.symm, h.2.2, h.2.1⟩
        rw [if_neg h2, if_neg h2s,
          max_comm (b.getD (b.length - i - 1) 0) (a.getD (a.length - i - 1) 0)]
        exact ih (i + 1) _ (by omega)
    · rw [if_neg h1, if_neg h1]
      rcases lt_trichotomy a.length b.length with hab | hab | hab
      · rw [if_neg (by omega : ¬ b.length < a.length), if_pos hab]
        exact ih (i + 1) _ (by omega)
      · exfalso
        omega
      · rw [if_pos hab, if_neg (by omega : ¬ a.length < b.length)]
        exact ih (i + 1) _ (by omega)

/-- C4: `GetBidirectionalBroadcastShape` succeeds exactly when, at every
right-aligned offset covered by both shapes, the dimensions are equal or
one equals 1; on success the output holds the maximum at shared offsets
and the longer shape's dimension elsewhere, with length max(len A, len B);
and the two spec examples hold: `[2,3,4]` with `[3,4]` gives `[2,3,4]`
while `[2,3]` with `[4,3]` fails. -/
theorem getBidirectionalBroadcastShape_spec :
    (∀ (a b out0 : List Int),
      ((GetBidirectionalBroadcastShape a b out0).1 = true ↔
        ∀ i, i < min a.length b.length → broadcastCompatAt a b i) ∧
      ((GetBidirectionalBroadcastShape a b out0).1 = true →
        (GetBidirectionalBroadcastShape a b out0).2 = broadcastOutputSpec a b) ∧
      ((GetBidirectionalBroadcastShape a b out0).1 = true →
        ((GetBidirectionalBroadcastShape a b out0).2).length =
          max a.length b.length)) ∧
    GetBidirectionalBroadcastShape [2, 3, 4] [3, 4] [] = (true, [2, 3, 4]) ∧
    (GetBidirectionalBroadcastShape [2, 3] [4, 3] []).1 = false := by
  refine ⟨?_, by decide, by decide⟩
  intro a b out0
  have hok := bcastLoop_ok_iff a b (max a.length b.length) 0
    (resizeShape out0 (max a.length b.length)) (by omega)
  refine ⟨?_, ?_, ?_⟩
  · rw [GetBidirectionalBroadcastShape, hok]
    constructor
    · intro h i hi
      exact h i (Nat.zero_le i) hi
    · intro h j _ hj
      exact h j hj
  · intro hsucc
    rw [GetBidirectionalBroadcastShape] at hsucc ⊢
    rw [hok] at hsucc
    rw [bcastLoop_out a b (max a.length b.length) 0 _ (by omega)
      (resizeShape_length out0 _) hsucc]
    rw [broadcastOutputSpec]
    have hdrop : (resizeShape out0 (max a.length b.length)).drop
        (max a.length b.length) = [] :=
      List.drop_eq_nil_of_le (by rw [resizeShape_length])
    rw [hdrop, List.append_nil]
  · intro _
    rw [GetBidirectionalBroadcastShape, bcastLoop_length, resizeShape_length]

/-- Witness for C4: the success implication instantiated at concrete
broadcast-compatible shapes. -/
theorem getBidirectionalBroadcastShape_spec_witness :
    (GetBidirectionalBroadcastShape [5, 1, 4] [7, 4] []).2 =
      broadcastOutputSpec [5, 1, 4] [7, 4] :=
  (getBidirectionalBroadcastShape_spec.1 [5, 1, 4] [7, 4] []).2.1 (by decide)

/-- C7: `GetBidirectionalBroadcastShape` is symmetric in its two shape
arguments: the success boolean agrees, and on success so does the output
shape. -/
theorem getBidirectionalBroadcastShape_symm (a b out0 : List Int) :
    (GetBidirectionalBroadcastShape a b out0).1 =
      (GetBidirectionalBroadcastShape b a out0).1 ∧
    ((GetBidirectionalBroadcastShape a b out0).1 = true →
      (GetBidirectionalBroadcastShape a b out0).2 =
        (GetBidirectionalBroadcastShape b a out0).2) := by
  have h : GetBidirectionalBroadcastShape a b out0 =
      GetBidirectionalBroadcastShape b a out0 := by
    rw [GetBidirectionalBroadcastShape, GetBidirectionalBroadcastShape,
      Nat.max_comm b.length a.length]
    exact bcastLoop_symm a b _ 0 _ (by omega)
  exact ⟨by rw [h], fun _ => by rw [h]⟩

/-- Witness for C7 at concrete shapes of different ranks. -/
theorem getBidirectionalBroadcastShape_symm_witness :
    (GetBidirectionalBroadcastShape [2, 3, 4] [3, 4] []).2 =
      (GetBidirectionalBroadcastShape [3, 4] [2, 3, 4] []).2 :=
  (getBidirectionalBroadcastShape_symm [2, 3, 4] [3, 4] []).2 (by decide)

/-- C9: `GetBidirectionalBroadcastShape` always resizes the in-out output
vector to max(len A, len B) — also when it returns false — so a failing
call does not leave the argument untouched: on the incompatible shapes
`[2,3]` and `[4,3]` an empty incoming vector comes back as `[0,3]`,
resized and holding one partially computed dimension. -/
theorem getBidirectionalBroadcastShape_resizes :
    (∀ (a b out0 : List Int),
      ((GetBidirectionalBroadcastShape a b out0).2).length =
        max a.length b.length) ∧
    (GetBidirectionalBroadcastShape [2, 3] [4, 3] []).1 = false ∧
    (GetBidirectionalBroadcastShape [2, 3] [4, 3] []).2 = [0, 3] := by
  refine ⟨?_, by decide, by decide⟩
  intro a b out0
  rw [GetBidirectionalBroadcastShape, bcastLoop_length, resizeShape_length]
